import Mathlib

/-!
# Identity-level cache of `core/sonm.go`

A shallow embedding of the SONM transaction-pool extension: the tier table
`accountSlotsDefaults`, the level store `accLevels`, the registry lookup
`getAccountProfile`, the quota query `AccountSlots`, the refresh sweep
`updateLevelInfo` and the constructor `NewSonmExtension`.

Both `AccountSlots` and `updateLevelInfo` hold the mutex `mu` for their whole
body, so each is one atomic transition of the extension's state; the mutex,
the context, the wait group and the ticker goroutine are not part of the
embedding.
-/

namespace Sonm

/-! ## Data model -/

/-- Go `type IdentityLevel uint8`. -/
abbrev IdentityLevel := Fin 256

/-- Go `IdentityLevel_UNKNOWN IdentityLevel = 0`. -/
def IdentityLevel_UNKNOWN : IdentityLevel := 0
/-- Go `IdentityLevel_ANONYMOUS IdentityLevel = 1`. -/
def IdentityLevel_ANONYMOUS : IdentityLevel := 1
/-- Go `IdentityLevel_REGISTERED IdentityLevel = 2`. -/
def IdentityLevel_REGISTERED : IdentityLevel := 2
/-- Go `IdentityLevel_IDENTIFIED IdentityLevel = 3`. -/
def IdentityLevel_IDENTIFIED : IdentityLevel := 3
/-- Go `IdentityLevel_PROFESSIONAL IdentityLevel = 4`. -/
def IdentityLevel_PROFESSIONAL : IdentityLevel := 4

/-- Go `var accountSlotsDefaults = map[IdentityLevel]uint64{...}`, a map literal
with five distinct keys, kept as its list of key/value pairs. -/
def accountSlotsDefaults : List (IdentityLevel × Nat) :=
  [ (IdentityLevel_UNKNOWN, 16),
    (IdentityLevel_ANONYMOUS, 32),
    (IdentityLevel_REGISTERED, 64),
    (IdentityLevel_IDENTIFIED, 128),
    (IdentityLevel_PROFESSIONAL, 256) ]

/-- Go `common.Address`, a 20-byte array, read as the big-endian number it
spells (below `2 ^ 160`). -/
abbrev Address := Nat

/-- Go `[]byte`. -/
abbrev Bytes := List Nat

/-- Go `error` values, kept as their message. -/
abbrev Error := String

/-- Go `var getProfileLevelAbi`, the JSON text of the registry method. -/
def getProfileLevelAbi : String :=
  "[\x7b\n      \"constant\": true,\n      \"inputs\": [\n        \x7b\n          \"name\": \"_owner\",\n          \"type\": \"address\"\n        \x7d\n      ],\n      \"name\": \"GetProfileLevel\",\n      \"outputs\": [\n        \x7b\n          \"name\": \"\",\n          \"type\": \"uint8\"\n        \x7d\n      ],\n      \"payable\": false,\n      \"stateMutability\": \"view\",\n      \"type\": \"function\"\n    \x7d]"

/-- Go `type SonmConfig struct`. -/
structure SonmConfig where
  ProfileRegistryAddr : String

/-- Go `var DefaultSonmConfig`. -/
def DefaultSonmConfig : SonmConfig :=
  { ProfileRegistryAddr := "0x1D4DAf3D826683DA8b68d9f5165ae1196Cf97b52" }

/-- Go `ethereum.CallMsg`, with the two fields `getAccountProfile` sets. -/
structure CallMsg where
  To : Address
  Data : Bytes

/-- Go `abi.ABI` (package `accounts/abi`, not part of `core/sonm.go`), taken as
a parameter: the names of the parsed methods, and `Pack` and `Unpack` as the
deterministic functions of their arguments they are. `Unpack` writes into a
`uint8`, so what it yields is an 8-bit value. -/
structure ABI where
  Methods : List String
  Pack : String → Address → Except Error Bytes
  Unpack : String → Bytes → Except Error (Fin 256)

/-- Go `*ethclient.Client` (not part of `core/sonm.go`), taken as a parameter.
The chain node is outside the program and may answer differently every time,
time-outs of the 500 ms request context included: `CallContract n msg` is the
answer to `msg` when it is the round trip number `n`, and `sent` counts the
round trips made so far. -/
structure Client where
  CallContract : Nat → CallMsg → Except Error Bytes
  sent : Nat

/-- Go `map[common.Address]IdentityLevel`: a finite map, unordered. -/
abbrev Store := Finmap (fun _ : Address => IdentityLevel)

/-- Go `s[addr] = level` on the level store. -/
def Store.set (s : Store) (addr : Address) (level : IdentityLevel) : Store :=
  Finmap.insert addr level s

/-- Go `make(map[common.Address]IdentityLevel)`. -/
def emptyStore : Store := ∅

/-- Go `type sonmExtension struct`, without `ctx`, `cancel`, `mu` and `wg`. -/
structure sonmExtension where
  accLevels : Store
  abi : ABI
  profileRegistry : Address
  client : Client

/-! ## Addresses from hexadecimal text -/

/-- Value of one hexadecimal digit, upper or lower case. -/
def hexDigit (c : Char) : Option Nat :=
  if 48 ≤ c.toNat ∧ c.toNat ≤ 57 then some (c.toNat - 48)
  else if 97 ≤ c.toNat ∧ c.toNat ≤ 102 then some (c.toNat - 87)
  else if 65 ≤ c.toNat ∧ c.toNat ≤ 70 then some (c.toNat - 55)
  else none

/-- Number spelled by a run of hexadecimal digits, read left to right from the
accumulator `acc`; reading ends at the first character that is no digit. -/
def hexValue : Nat → List Char → Nat
  | acc, [] => acc
  | acc, c :: cs =>
    match hexDigit c with
    | some d => hexValue (acc * 16 + d) cs
    | none => acc

/-- Modelled from the spec: `common.HexToAddress` is not part of `core/sonm.go`.
The spec calls an address a fixed-width hex-encoded identifier that is
case-insensitive: an optional `0x` is dropped, the digits are read in either
case, and the number is kept to 20 bytes. -/
def HexToAddress (s : String) : Address :=
  match s.data with
  | '0' :: 'x' :: cs => hexValue 0 cs % 2 ^ 160
  | '0' :: 'X' :: cs => hexValue 0 cs % 2 ^ 160
  | cs => hexValue 0 cs % 2 ^ 160

/-! ## Operations -/

/-- Go `func (m *sonmExtension) getAccountProfile(addr) (IdentityLevel, error)`.
The result is the Go pair (level, error), `none` being `nil`, together with the
extension after the call: a round trip to the node advances `client.sent`. -/
def getAccountProfile (m : sonmExtension) (addr : Address) :
    IdentityLevel × Option Error × sonmExtension :=
  match m.abi.Pack "GetProfileLevel" addr with
  | .error err => (IdentityLevel_UNKNOWN, some err, m)
  | .ok out =>
    let msg : CallMsg := { To := m.profileRegistry, Data := out }
    let m1 : sonmExtension :=
      { m with client := { m.client with sent := m.client.sent + 1 } }
    match m.client.CallContract m.client.sent msg with
    | .error err => (IdentityLevel_UNKNOWN, some err, m1)
    | .ok result =>
      match m.abi.Unpack "GetProfileLevel" result with
      | .error err => (IdentityLevel_UNKNOWN, some err, m1)
      | .ok resultLevel => (resultLevel, none, m1)

/-- Lines 115 to 119 of `AccountSlots`: the quota of `level` in the tier table,
and the table's entry for `UNKNOWN` when `level` has none (a Go map yields the
zero value for a missing key). -/
def resolveSlots (level : IdentityLevel) : Nat :=
  match accountSlotsDefaults.lookup level with
  | some slots => slots
  | none => (accountSlotsDefaults.lookup IdentityLevel_UNKNOWN).getD 0

/-- Go `func (m *sonmExtension) AccountSlots(addr common.Address) uint64`: the
quota returned and the extension afterwards.

`level, ok := m.accLevels[addr]` assigns the function-level variable `level`
(the zero value on a miss). Inside `if !ok { ... }` the statement
`level, err := m.getAccountProfile(addr)` declares a new `level` in the block's
scope: it is that inner variable which is stored, while the quota is resolved
from the outer one. -/
def AccountSlots (m : sonmExtension) (addr : Address) : Nat × sonmExtension :=
  let level : IdentityLevel := (m.accLevels.lookup addr).getD 0
  let ok : Bool := (m.accLevels.lookup addr).isSome
  let m2 : sonmExtension :=
    if !ok then
      let r := getAccountProfile m addr
      let innerLevel : IdentityLevel :=
        if r.2.1.isSome then IdentityLevel_UNKNOWN else r.1
      { r.2.2 with accLevels := r.2.2.accLevels.set addr innerLevel }
    else m
  (resolveSlots level, m2)

/-- One turn of the loop body of `updateLevelInfo` for the key `addr`; `range`
yields only keys of the map, with the level stored at that moment. -/
def updateLevelStep (m : sonmExtension) (addr : Address) : sonmExtension :=
  match m.accLevels.lookup addr with
  | none => m
  | some level =>
    let r := getAccountProfile m addr
    if r.2.1.isSome then r.2.2
    else if r.1 ≠ level then
      { r.2.2 with accLevels := r.2.2.accLevels.set addr r.1 }
    else r.2.2

/-- Orders in which `for addr, level := range m.accLevels` may visit the map:
Go leaves the order open, and as the loop neither adds nor deletes a key every
key is visited exactly once. -/
def RangeOrder (s : Store) (order : List Address) : Prop :=
  order.Nodup ∧ ∀ a, a ∈ order ↔ a ∈ s

/-- Go `func (m *sonmExtension) updateLevelInfo()`, for the order in which
`range` visits the keys. -/
def updateLevelInfo (order : List Address) (m : sonmExtension) : sonmExtension :=
  order.foldl updateLevelStep m

/-- Go `func NewSonmExtension(cfg, client) (SonmExtension, error)`. `JSON` is
`abi.JSON` applied to the reader of a text, a parameter like the rest of
package `accounts/abi`. Starting the goroutine `loop` leaves the state as it
is. -/
def NewSonmExtension (JSON : String → Except Error ABI) (cfg : SonmConfig)
    (client : Client) : Except Error sonmExtension :=
  match JSON getProfileLevelAbi with
  | .error err => .error err
  | .ok abi =>
    if !(abi.Methods.contains "GetProfileLevel") then
      .error "failed to find GetProfileLevel in parsed ABI"
    else
      .ok
        { abi := abi
          profileRegistry := HexToAddress cfg.ProfileRegistryAddr
          accLevels :=
            (emptyStore.set
                (HexToAddress "0xfe9e8709d3215310075d67e3ed32a380ccf451c8")
                IdentityLevel_UNKNOWN).set
              (HexToAddress "0xB6b5089844F439018635bab88B36cd4705f0d090")
              IdentityLevel_UNKNOWN
          client := client }

/-! ## Collaborators used in the worked scenarios -/

/-- An ABI with the one method `GetProfileLevel`: the call data is the address
as a single number, and a reply is decoded when it is one number below 256. -/
def scenarioABI : ABI :=
  { Methods := ["GetProfileLevel"]
    Pack := fun _ addr => .ok [addr]
    Unpack := fun _ result =>
      match result with
      | [x] => if h : x < 256 then .ok ⟨x, h⟩ else .error "abi: cannot unmarshal"
      | _ => .error "abi: cannot unmarshal" }

/-- An ABI whose `Pack` rejects every call. -/
def brokenPackABI : ABI :=
  { scenarioABI with Pack := fun _ _ => .error "abi: method not found" }

/-- Address A of the spec's scenario. -/
def addrA : Address := 0xA1

/-- Address B of the spec's scenario. -/
def addrB : Address := 0xB2

/-- A node that answers `PROFESSIONAL` for A and times out on everything else. -/
def nodeProfessional : Client :=
  { CallContract := fun _ msg =>
      if msg.Data = [addrA] then .ok [4] else .error "context deadline exceeded"
    sent := 0 }

/-- A node that answers `ANONYMOUS` for A and times out on everything else. -/
def nodeAnonymous : Client :=
  { CallContract := fun _ msg =>
      if msg.Data = [addrA] then .ok [1] else .error "context deadline exceeded"
    sent := 0 }

/-- A node that answers `REGISTERED` for every address. -/
def nodeRegistered : Client :=
  { CallContract := fun _ _ => .ok [2], sent := 0 }

/-- A node whose reply is two numbers, which `Unpack` rejects. -/
def nodeGarbled : Client :=
  { CallContract := fun _ _ => .ok [4, 4], sent := 0 }

/-- An extension with the given store, ABI and node, its registry at the
default address. -/
def extensionWith (s : Store) (abi : ABI) (client : Client) : sonmExtension :=
  { accLevels := s
    abi := abi
    profileRegistry := HexToAddress DefaultSonmConfig.ProfileRegistryAddr
    client := client }

/-! ## The tier table -/

/-- The quota of a level as the specification words it: 16, 32, 64, 128 and 256
for the levels 0 to 4, and the `UNKNOWN` quota 16 for every other value. -/
def quotaReference (level : IdentityLevel) : Nat :=
  if level.val = 0 then 16
  else if level.val = 1 then 32
  else if level.val = 2 then 64
  else if level.val = 3 then 128
  else if level.val = 4 then 256
  else 16

/-! ## Runs, registries and reference outcomes -/

/-- States the extension `m0` can reach by `AccountSlots` calls and refresh
sweeps, in any number and order. -/
inductive Reachable (m0 : sonmExtension) : sonmExtension → Prop
  | start : Reachable m0 m0
  | slots {m : sonmExtension} (addr : Address) :
      Reachable m0 m → Reachable m0 (AccountSlots m addr).2
  | sweep {m : sonmExtension} (order : List Address) :
      Reachable m0 m → RangeOrder m.accLevels order →
      Reachable m0 (updateLevelInfo order m)

/-- The node answers as a function of the request alone: the same reply
whatever the number of the round trip. -/
def Stationary (m : sonmExtension) : Prop :=
  ∀ (n k : Nat) (msg : CallMsg), m.client.CallContract n msg = m.client.CallContract k msg

/-- The extension `m2` talks to the registry of `m1`: same ABI, same registry
address, same node. -/
def SameRegistry (m1 m2 : sonmExtension) : Prop :=
  m2.abi = m1.abi ∧ m2.profileRegistry = m1.profileRegistry ∧
    m2.client.CallContract = m1.client.CallContract

/-- The store a sweep is expected to leave: a cached address holds the level of
its lookup when that succeeds and its previous level when it fails; an address
that is not cached stays absent. -/
def refreshed (m : sonmExtension) (a : Address) : Option IdentityLevel :=
  match m.accLevels.lookup a with
  | none => none
  | some old =>
    if (getAccountProfile m a).2.1.isSome then some old
    else some (getAccountProfile m a).1

/-! ## Scenario states -/

/-- Nothing cached, the node answering `PROFESSIONAL` for A. -/
def freshProfessional : sonmExtension :=
  extensionWith emptyStore scenarioABI nodeProfessional

/-- A cached at `PROFESSIONAL` and B at `UNKNOWN`, the node by now answering
`ANONYMOUS` for A and timing out for B. -/
def cachedThenAnonymous : sonmExtension :=
  extensionWith ((emptyStore.set addrA IdentityLevel_PROFESSIONAL).set addrB
    IdentityLevel_UNKNOWN) scenarioABI nodeAnonymous

/-- B cached at `REGISTERED` and A at `ANONYMOUS`, the node answering
`PROFESSIONAL` for A and timing out for B. -/
def cachedWithOutage : sonmExtension :=
  extensionWith ((emptyStore.set addrB IdentityLevel_REGISTERED).set addrA
    IdentityLevel_ANONYMOUS) scenarioABI nodeProfessional

/-- First address seeded by `NewSonmExtension`. -/
def seedOne : Address := HexToAddress "0xfe9e8709d3215310075d67e3ed32a380ccf451c8"

/-- Second address seeded by `NewSonmExtension`. -/
def seedTwo : Address := HexToAddress "0xB6b5089844F439018635bab88B36cd4705f0d090"

/-- The extension `NewSonmExtension` builds from `scenarioABI`, the default
configuration and the node answering `REGISTERED`. -/
def seededRegistered : sonmExtension :=
  extensionWith ((emptyStore.set seedOne IdentityLevel_UNKNOWN).set seedTwo
    IdentityLevel_UNKNOWN) scenarioABI nodeRegistered

/-! ## Lemmas on the store -/

theorem Store.lookup_set_self (s : Store) (a : Address) (l : IdentityLevel) :
    (s.set a l).lookup a = some l := by
  unfold Store.set
  exact Finmap.lookup_insert s

theorem Store.lookup_set_ne (s : Store) {a b : Address} (l : IdentityLevel)
    (h : b ≠ a) : (s.set a l).lookup b = s.lookup b := by
  unfold Store.set
  exact Finmap.lookup_insert_of_ne s h

theorem Store.mem_set (s : Store) (a b : Address) (l : IdentityLevel) :
    b ∈ s.set a l ↔ b = a ∨ b ∈ s := by
  unfold Store.set
  exact Finmap.mem_insert

theorem Store.lookup_set (s : Store) (a b : Address) (l : IdentityLevel) :
    (s.set a l).lookup b = if b = a then some l else s.lookup b := by
  by_cases h : b = a
  · subst h
    simp [Store.lookup_set_self]
  · simp [h, Store.lookup_set_ne]

/-! ## Lemmas on the registry lookup -/

theorem getAccountProfile_accLevels (m : sonmExtension) (addr : Address) :
    (getAccountProfile m addr).2.2.accLevels = m.accLevels := by
  unfold getAccountProfile
  split
  · rfl
  · dsimp only
    split
    · rfl
    · split <;> rfl

theorem getAccountProfile_abi (m : sonmExtension) (addr : Address) :
    (getAccountProfile m addr).2.2.abi = m.abi := by
  unfold getAccountProfile
  split
  · rfl
  · dsimp only
    split
    · rfl
    · split <;> rfl

theorem getAccountProfile_profileRegistry (m : sonmExtension) (addr : Address) :
    (getAccountProfile m addr).2.2.profileRegistry = m.profileRegistry := by
  unfold getAccountProfile
  split
  · rfl
  · dsimp only
    split
    · rfl
    · split <;> rfl

theorem getAccountProfile_CallContract (m : sonmExtension) (addr : Address) :
    (getAccountProfile m addr).2.2.client.CallContract = m.client.CallContract := by
  unfold getAccountProfile
  split
  · rfl
  · dsimp only
    split
    · rfl
    · split <;> rfl

/-- The lookup reports an error exactly when packing the call, the round trip
or unpacking the reply fails. -/
theorem getAccountProfile_fails_iff (m : sonmExtension) (addr : Address) :
    (getAccountProfile m addr).2.1.isSome ↔
      ((∃ e, m.abi.Pack "GetProfileLevel" addr = .error e) ∨
        (∃ out e, m.abi.Pack "GetProfileLevel" addr = .ok out ∧
          m.client.CallContract m.client.sent
            { To := m.profileRegistry, Data := out } = .error e) ∨
        (∃ out result e, m.abi.Pack "GetProfileLevel" addr = .ok out ∧
          m.client.CallContract m.client.sent
            { To := m.profileRegistry, Data := out } = .ok result ∧
          m.abi.Unpack "GetProfileLevel" result = .error e)) := by
  unfold getAccountProfile
  split
  · rename_i e he
    simp [he]
  · rename_i out hout
    dsimp only
    split
    · rename_i e he
      simp [hout, he]
    · rename_i result hres
      split
      · rename_i e he
        simp [hout, hres, he]
      · rename_i lvl hl
        simp [hout, hres, hl]

/-! ## Lemmas on `AccountSlots` -/

theorem AccountSlots_hit (m : sonmExtension) (addr : Address) (level : IdentityLevel)
    (h : m.accLevels.lookup addr = some level) :
    AccountSlots m addr = (resolveSlots level, m) := by
  simp [AccountSlots, h]

theorem AccountSlots_miss (m : sonmExtension) (addr : Address)
    (h : m.accLevels.lookup addr = none) :
    AccountSlots m addr =
      (resolveSlots 0,
        { (getAccountProfile m addr).2.2 with
          accLevels := (getAccountProfile m addr).2.2.accLevels.set addr
            (if (getAccountProfile m addr).2.1.isSome then IdentityLevel_UNKNOWN
              else (getAccountProfile m addr).1) }) := by
  simp [AccountSlots, h]

theorem resolveSlots_eq_quotaReference (level : IdentityLevel) :
    resolveSlots level = quotaReference level := by
  obtain ⟨l, hl⟩ := level
  interval_cases l <;> rfl

/-! ## Lemmas on the refresh sweep -/

theorem updateLevelStep_lookup_ne (m : sonmExtension) {a addr : Address}
    (h : a ≠ addr) :
    (updateLevelStep m addr).accLevels.lookup a = m.accLevels.lookup a := by
  unfold updateLevelStep
  split
  · rfl
  · dsimp only
    split
    · rw [getAccountProfile_accLevels]
    · split
      · simp only [getAccountProfile_accLevels]
        exact Store.lookup_set_ne _ _ h
      · rw [getAccountProfile_accLevels]

theorem updateLevelStep_lookup_self (m : sonmExtension) (addr : Address)
    (level : IdentityLevel) (h : m.accLevels.lookup addr = some level) :
    (updateLevelStep m addr).accLevels.lookup addr =
      some (if (getAccountProfile m addr).2.1.isSome then level
        else (getAccountProfile m addr).1) := by
  unfold updateLevelStep
  rw [h]
  dsimp only
  by_cases hfail : (getAccountProfile m addr).2.1.isSome = true
  · rw [if_pos hfail, if_pos hfail, getAccountProfile_accLevels, h]
  · rw [if_neg hfail, if_neg hfail]
    by_cases hne : (getAccountProfile m addr).1 ≠ level
    · rw [if_pos hne]
      exact Store.lookup_set_self _ _ _
    · rw [if_neg hne, getAccountProfile_accLevels, h]
      rw [not_not] at hne
      rw [hne]

theorem updateLevelStep_lookup_of_failure (m : sonmExtension) (addr : Address)
    (hfail : (getAccountProfile m addr).2.1.isSome = true) :
    (updateLevelStep m addr).accLevels.lookup addr = m.accLevels.lookup addr := by
  cases h : m.accLevels.lookup addr with
  | none =>
    unfold updateLevelStep
    rw [h]
    exact h
  | some level =>
    rw [updateLevelStep_lookup_self m addr level h, if_pos hfail]

theorem updateLevelStep_mem (m : sonmExtension) (a addr : Address) :
    a ∈ (updateLevelStep m addr).accLevels ↔ a ∈ m.accLevels := by
  by_cases h : a = addr
  · subst h
    cases hl : m.accLevels.lookup a with
    | none =>
      unfold updateLevelStep
      rw [hl]
    | some level =>
      rw [← Finmap.lookup_isSome, ← Finmap.lookup_isSome,
        updateLevelStep_lookup_self m a level hl, hl]
      simp
  · rw [← Finmap.lookup_isSome, ← Finmap.lookup_isSome, updateLevelStep_lookup_ne m h]

theorem updateLevelStep_sameRegistry (m : sonmExtension) (addr : Address) :
    SameRegistry m (updateLevelStep m addr) := by
  unfold updateLevelStep SameRegistry
  split
  · exact ⟨rfl, rfl, rfl⟩
  · dsimp only
    split
    · exact ⟨getAccountProfile_abi m addr, getAccountProfile_profileRegistry m addr,
        getAccountProfile_CallContract m addr⟩
    · split
      · exact ⟨getAccountProfile_abi m addr, getAccountProfile_profileRegistry m addr,
          getAccountProfile_CallContract m addr⟩
      · exact ⟨getAccountProfile_abi m addr, getAccountProfile_profileRegistry m addr,
          getAccountProfile_CallContract m addr⟩

theorem SameRegistry.refl (m : sonmExtension) : SameRegistry m m :=
  ⟨rfl, rfl, rfl⟩

theorem SameRegistry.trans {m1 m2 m3 : sonmExtension} (h12 : SameRegistry m1 m2)
    (h23 : SameRegistry m2 m3) : SameRegistry m1 m3 :=
  ⟨h23.1.trans h12.1, h23.2.1.trans h12.2.1, h23.2.2.trans h12.2.2⟩

theorem updateLevelInfo_nil (m : sonmExtension) : updateLevelInfo [] m = m := rfl

theorem updateLevelInfo_cons (a : Address) (rest : List Address) (m : sonmExtension) :
    updateLevelInfo (a :: rest) m = updateLevelInfo rest (updateLevelStep m a) := rfl

theorem updateLevelInfo_append (pre post : List Address) (m : sonmExtension) :
    updateLevelInfo (pre ++ post) m = updateLevelInfo post (updateLevelInfo pre m) := by
  unfold updateLevelInfo
  exact List.foldl_append _ _ _ _

theorem updateLevelInfo_lookup_of_not_mem (order : List Address) (m : sonmExtension)
    (a : Address) (h : a ∉ order) :
    (updateLevelInfo order m).accLevels.lookup a = m.accLevels.lookup a := by
  induction order generalizing m with
  | nil => rfl
  | cons x rest ih =>
    rw [updateLevelInfo_cons, ih _ (fun hmem => h (List.mem_cons_of_mem _ hmem))]
    exact updateLevelStep_lookup_ne m (fun hax => h (hax ▸ List.mem_cons_self _ _))

theorem updateLevelInfo_mem (order : List Address) (m : sonmExtension) (a : Address) :
    a ∈ (updateLevelInfo order m).accLevels ↔ a ∈ m.accLevels := by
  induction order generalizing m with
  | nil => rfl
  | cons x rest ih => rw [updateLevelInfo_cons, ih, updateLevelStep_mem]

theorem updateLevelInfo_sameRegistry (order : List Address) (m : sonmExtension) :
    SameRegistry m (updateLevelInfo order m) := by
  induction order generalizing m with
  | nil => exact SameRegistry.refl m
  | cons x rest ih =>
    rw [updateLevelInfo_cons]
    exact (updateLevelStep_sameRegistry m x).trans (ih _)

/-- The entry of `addr` after a sweep is the one left by the turn of the loop
that visits `addr`. -/
theorem updateLevelInfo_lookup_split (pre post : List Address) (addr : Address)
    (m : sonmExtension) (hnodup : (pre ++ addr :: post).Nodup) :
    (updateLevelInfo (pre ++ addr :: post) m).accLevels.lookup addr =
        (updateLevelStep (updateLevelInfo pre m) addr).accLevels.lookup addr ∧
      (updateLevelInfo pre m).accLevels.lookup addr = m.accLevels.lookup addr := by
  have hpre : addr ∉ pre := by
    intro hmem
    have := (List.nodup_append.mp hnodup).2.2
    exact this hmem (List.mem_cons_self _ _)
  have hpost : addr ∉ post := by
    have := (List.nodup_append.mp hnodup).2.1
    exact (List.nodup_cons.mp this).1
  refine ⟨?_, updateLevelInfo_lookup_of_not_mem pre m addr hpre⟩
  rw [updateLevelInfo_append, updateLevelInfo_cons,
    updateLevelInfo_lookup_of_not_mem post _ addr hpost]

theorem AccountSlots_miss_quota (m : sonmExtension) (addr : Address)
    (h : m.accLevels.lookup addr = none) : (AccountSlots m addr).1 = 16 := by
  rw [AccountSlots_miss m addr h]
  rfl

theorem AccountSlots_miss_accLevels (m : sonmExtension) (addr : Address)
    (h : m.accLevels.lookup addr = none) :
    (AccountSlots m addr).2.accLevels =
      m.accLevels.set addr
        (if (getAccountProfile m addr).2.1.isSome then IdentityLevel_UNKNOWN
          else (getAccountProfile m addr).1) := by
  rw [AccountSlots_miss m addr h]
  simp only [getAccountProfile_accLevels]

theorem AccountSlots_mem (m : sonmExtension) (addr a : Address) :
    a ∈ (AccountSlots m addr).2.accLevels ↔ a = addr ∨ a ∈ m.accLevels := by
  cases h : m.accLevels.lookup addr with
  | none =>
    rw [AccountSlots_miss_accLevels m addr h]
    exact Store.mem_set _ _ _ _
  | some level =>
    rw [AccountSlots_hit m addr level h]
    constructor
    · exact Or.inr
    · rintro (rfl | hmem)
      · exact Finmap.mem_of_lookup_eq_some h
      · exact hmem

theorem Store.keys_set (s : Store) (a : Address) (l : IdentityLevel) :
    (s.set a l).keys = insert a s.keys := by
  ext b
  rw [Finmap.mem_keys, Store.mem_set, Finset.mem_insert, Finmap.mem_keys]

/-! ## Lemmas on sweeps against a stationary registry -/

theorem getAccountProfile_of_sameRegistry (m m2 : sonmExtension) (a : Address)
    (hst : Stationary m) (hsame : SameRegistry m m2) :
    (getAccountProfile m2 a).1 = (getAccountProfile m a).1 ∧
      (getAccountProfile m2 a).2.1 = (getAccountProfile m a).2.1 := by
  obtain ⟨habi, hreg, hcc⟩ := hsame
  have hfun : m.client.CallContract m2.client.sent = m.client.CallContract m.client.sent :=
    funext (hst _ _)
  simp only [getAccountProfile, habi, hreg, hcc, hfun]
  cases m.abi.Pack "GetProfileLevel" a with
  | error e => exact ⟨rfl, rfl⟩
  | ok out =>
    dsimp only
    cases m.client.CallContract m.client.sent { To := m.profileRegistry, Data := out } with
    | error e => exact ⟨rfl, rfl⟩
    | ok result =>
      dsimp only
      cases m.abi.Unpack "GetProfileLevel" result with
      | error e => exact ⟨rfl, rfl⟩
      | ok lvl => exact ⟨rfl, rfl⟩

theorem Stationary.of_sameRegistry {m m2 : sonmExtension} (hst : Stationary m)
    (hsame : SameRegistry m m2) : Stationary m2 := by
  intro n k msg
  rw [hsame.2.2]
  exact hst n k msg

theorem refreshed_eq_map (m : sonmExtension) (a : Address) :
    refreshed m a =
      (m.accLevels.lookup a).map
        (fun old => if (getAccountProfile m a).2.1.isSome then old
          else (getAccountProfile m a).1) := by
  unfold refreshed
  cases m.accLevels.lookup a with
  | none => rfl
  | some old =>
    dsimp only [Option.map]
    split <;> rfl

theorem updateLevelInfo_lookup_stationary (m : sonmExtension) (hst : Stationary m)
    (order : List Address) (m2 : sonmExtension) (hsame : SameRegistry m m2)
    (hnodup : order.Nodup) (a : Address) :
    (updateLevelInfo order m2).accLevels.lookup a =
      if a ∈ order then
        (m2.accLevels.lookup a).map
          (fun old => if (getAccountProfile m a).2.1.isSome then old
            else (getAccountProfile m a).1)
      else m2.accLevels.lookup a := by
  induction order generalizing m2 with
  | nil => simp [updateLevelInfo_nil]
  | cons x rest ih =>
    obtain ⟨hx, hrest⟩ := List.nodup_cons.mp hnodup
    have hsame2 : SameRegistry m (updateLevelStep m2 x) :=
      hsame.trans (updateLevelStep_sameRegistry m2 x)
    rw [updateLevelInfo_cons, ih _ hsame2 hrest]
    by_cases hax : a = x
    · subst hax
      rw [if_neg hx, if_pos (List.mem_cons_self _ _)]
      cases hl : m2.accLevels.lookup a with
      | none =>
        unfold updateLevelStep
        rw [hl]
        simp [hl]
      | some old =>
        rw [updateLevelStep_lookup_self m2 a old hl,
          (getAccountProfile_of_sameRegistry m m2 a hst hsame).1,
          (getAccountProfile_of_sameRegistry m m2 a hst hsame).2]
        rfl
    · rw [updateLevelStep_lookup_ne m2 hax]
      by_cases hmem : a ∈ rest
      · rw [if_pos hmem, if_pos (List.mem_cons_of_mem _ hmem)]
      · have hnot : a ∉ x :: rest := by
          intro h
          rcases List.mem_cons.mp h with h | h
          · exact hax h
          · exact hmem h
        rw [if_neg hmem, if_neg hnot]

theorem updateLevelInfo_lookup_refreshed (m : sonmExtension) (hst : Stationary m)
    (order : List Address) (horder : RangeOrder m.accLevels order) (a : Address) :
    (updateLevelInfo order m).accLevels.lookup a = refreshed m a := by
  rw [updateLevelInfo_lookup_stationary m hst order m (SameRegistry.refl m) horder.1,
    refreshed_eq_map]
  by_cases hmem : a ∈ order
  · rw [if_pos hmem]
  · rw [if_neg hmem]
    have hnot : a ∉ m.accLevels := fun h => hmem ((horder.2 a).mpr h)
    rw [Finmap.lookup_eq_none.mpr hnot]
    rfl

/-- The level a sweep leaves for `addr` when the lookup made for it succeeds. -/
theorem updateLevelInfo_lookup_of_success (m : sonmExtension) (pre post : List Address)
    (addr : Address) (cached : IdentityLevel)
    (hnodup : (pre ++ addr :: post).Nodup)
    (hcached : m.accLevels.lookup addr = some cached)
    (hok : (getAccountProfile (updateLevelInfo pre m) addr).2.1 = none) :
    (updateLevelInfo (pre ++ addr :: post) m).accLevels.lookup addr =
      some (getAccountProfile (updateLevelInfo pre m) addr).1 := by
  obtain ⟨hsweep, hpre⟩ := updateLevelInfo_lookup_split pre post addr m hnodup
  rw [hsweep, updateLevelStep_lookup_self _ addr cached (hpre.trans hcached), hok]
  rfl

/-! ## Lemmas on the constructor and on runs -/

theorem NewSonmExtension_accLevels (JSON : String → Except Error ABI) (cfg : SonmConfig)
    (client : Client) (m0 : sonmExtension)
    (hnew : NewSonmExtension JSON cfg client = .ok m0) :
    m0.accLevels =
      (emptyStore.set seedOne IdentityLevel_UNKNOWN).set seedTwo IdentityLevel_UNKNOWN := by
  unfold NewSonmExtension at hnew
  split at hnew
  · cases hnew
  · split at hnew
    · cases hnew
    · cases hnew
      rfl

/-- The constructor succeeds as soon as the ABI text parses and defines
`GetProfileLevel`. -/
theorem NewSonmExtension_ok (JSON : String → Except Error ABI) (cfg : SonmConfig)
    (client : Client) (abi : ABI) (hparse : JSON getProfileLevelAbi = .ok abi)
    (hmethod : "GetProfileLevel" ∈ abi.Methods) :
    ∃ m0, NewSonmExtension JSON cfg client = .ok m0 := by
  unfold NewSonmExtension
  rw [hparse]
  simp [hmethod]

theorem AccountSlots_keys_subset (m : sonmExtension) (addr : Address) :
    m.accLevels.keys ⊆ (AccountSlots m addr).2.accLevels.keys := by
  intro a ha
  rw [Finmap.mem_keys] at ha ⊢
  exact (AccountSlots_mem m addr a).mpr (Or.inr ha)

theorem updateLevelInfo_keys (order : List Address) (m : sonmExtension) :
    (updateLevelInfo order m).accLevels.keys = m.accLevels.keys := by
  ext a
  rw [Finmap.mem_keys, Finmap.mem_keys, updateLevelInfo_mem]

theorem Reachable.keys_subset {m0 m : sonmExtension} (h : Reachable m0 m) :
    m0.accLevels.keys ⊆ m.accLevels.keys := by
  induction h with
  | start => exact Finset.Subset.refl _
  | slots addr _ ih => exact ih.trans (AccountSlots_keys_subset _ addr)
  | sweep order _ _ ih =>
    rw [updateLevelInfo_keys]
    exact ih

theorem rangeOrder_pair (s : Store) (a b : Address) (hab : a ≠ b)
    (hs : ∀ x, x ∈ s ↔ x = a ∨ x = b) : RangeOrder s [a, b] ∧ RangeOrder s [b, a] := by
  refine ⟨⟨by simp [hab], fun x => by simp [hs x]⟩, ⟨by simp [Ne.symm hab], fun x => ?_⟩⟩
  simp only [List.mem_cons, List.mem_singleton, List.not_mem_nil, or_false, hs x]
  exact or_comm

theorem mem_pair_store (a b : Address) (la lb : IdentityLevel) (x : Address) :
    x ∈ (emptyStore.set a la).set b lb ↔ x = a ∨ x = b := by
  rw [Store.mem_set, Store.mem_set]
  constructor
  · rintro (h | h | h)
    · exact Or.inr h
    · exact Or.inl h
    · exact absurd h (Finmap.not_mem_empty)
  · rintro (h | h)
    · exact Or.inr (Or.inl h)
    · exact Or.inl h

theorem RangeOrder.after_sweep {m : sonmExtension} {order : List Address}
    (swept : List Address) (h : RangeOrder m.accLevels order) :
    RangeOrder (updateLevelInfo swept m).accLevels order :=
  ⟨h.1, fun a => (h.2 a).trans (updateLevelInfo_mem swept m a).symm⟩

theorem nodeRegistered_lookup (m2 : sonmExtension) (a : Address)
    (hsame : SameRegistry seededRegistered m2) :
    (getAccountProfile m2 a).1 = IdentityLevel_REGISTERED ∧
      (getAccountProfile m2 a).2.1 = none := by
  have hst : Stationary seededRegistered := fun _ _ _ => rfl
  obtain ⟨h1, h2⟩ := getAccountProfile_of_sameRegistry seededRegistered m2 a hst hsame
  exact ⟨h1.trans rfl, h2.trans rfl⟩

/-! ## The claims -/

/-- C7: the quota resolution used by `AccountSlots` agrees with the reference on
every 8-bit level: 16, 32, 64, 128, 256 for the levels 0 to 4, and 16 for every
value from 5 to 255. The tier table has an entry exactly for the levels 0 to 4,
and `AccountSlots` returns the resolution of the level it read from the store
(the zero value on a miss). -/
theorem resolveSlots_matches_reference :
    (∀ level : IdentityLevel, resolveSlots level = quotaReference level) ∧
      resolveSlots IdentityLevel_UNKNOWN = 16 ∧
      resolveSlots IdentityLevel_ANONYMOUS = 32 ∧
      resolveSlots IdentityLevel_REGISTERED = 64 ∧
      resolveSlots IdentityLevel_IDENTIFIED = 128 ∧
      resolveSlots IdentityLevel_PROFESSIONAL = 256 ∧
      (∀ level : IdentityLevel,
        (accountSlotsDefaults.lookup level).isSome = decide (level.val ≤ 4)) ∧
      (∀ (m : sonmExtension) (addr : Address),
        (AccountSlots m addr).1 = resolveSlots ((m.accLevels.lookup addr).getD 0)) := by
  refine ⟨resolveSlots_eq_quotaReference, rfl, rfl, rfl, rfl, rfl, ?_, ?_⟩
  · intro level
    obtain ⟨l, hl⟩ := level
    interval_cases l <;> rfl
  · intro m addr
    rfl

/-- C1 (what the code does at the scenario of the claim): nothing is cached for
A and the registry lookup for A succeeds with `PROFESSIONAL`, whose quota in the
tier table is 256; yet the first `AccountSlots` call for A returns 16, the
`UNKNOWN` quota. The store does receive `PROFESSIONAL`, and the second call
returns 256. -/
theorem AccountSlots_first_call_professional :
    freshProfessional.accLevels.lookup addrA = none ∧
      (getAccountProfile freshProfessional addrA).1 = IdentityLevel_PROFESSIONAL ∧
      (getAccountProfile freshProfessional addrA).2.1 = none ∧
      resolveSlots IdentityLevel_PROFESSIONAL = 256 ∧
      (AccountSlots freshProfessional addrA).1 = 16 ∧
      (AccountSlots freshProfessional addrA).2.accLevels.lookup addrA =
        some IdentityLevel_PROFESSIONAL ∧
      (AccountSlots (AccountSlots freshProfessional addrA).2 addrA).1 = 256 := by
  decide

/-- C2: when `addr` is not cached and its registry lookup fails, `AccountSlots`
returns the `UNKNOWN` quota 16 and the store afterwards maps `addr` to
`UNKNOWN`. (`AccountSlots` has no error result.) -/
theorem AccountSlots_lookup_failure (m : sonmExtension) (addr : Address)
    (hmiss : m.accLevels.lookup addr = none)
    (hfail : (getAccountProfile m addr).2.1.isSome = true) :
    (AccountSlots m addr).1 = 16 ∧
      (AccountSlots m addr).1 = resolveSlots IdentityLevel_UNKNOWN ∧
      (AccountSlots m addr).2.accLevels.lookup addr = some IdentityLevel_UNKNOWN := by
  refine ⟨AccountSlots_miss_quota m addr hmiss, AccountSlots_miss_quota m addr hmiss, ?_⟩
  rw [AccountSlots_miss_accLevels m addr hmiss, if_pos hfail]
  exact Store.lookup_set_self _ _ _

/-- C2 at work for each kind of failure: `Pack` rejecting the call, the round
trip timing out, and `Unpack` rejecting the reply. -/
theorem AccountSlots_lookup_failure_scenarios :
    ((extensionWith emptyStore brokenPackABI nodeProfessional).accLevels.lookup addrA = none ∧
      (getAccountProfile (extensionWith emptyStore brokenPackABI nodeProfessional)
        addrA).2.1 = some "abi: method not found" ∧
      (AccountSlots (extensionWith emptyStore brokenPackABI nodeProfessional) addrA).1 = 16 ∧
      (AccountSlots (extensionWith emptyStore brokenPackABI nodeProfessional)
        addrA).2.accLevels.lookup addrA = some IdentityLevel_UNKNOWN) ∧
    (freshProfessional.accLevels.lookup addrB = none ∧
      (getAccountProfile freshProfessional addrB).2.1 = some "context deadline exceeded" ∧
      (AccountSlots freshProfessional addrB).1 = 16 ∧
      (AccountSlots freshProfessional addrB).2.accLevels.lookup addrB =
        some IdentityLevel_UNKNOWN) ∧
    ((extensionWith emptyStore scenarioABI nodeGarbled).accLevels.lookup addrA = none ∧
      (getAccountProfile (extensionWith emptyStore scenarioABI nodeGarbled)
        addrA).2.1 = some "abi: cannot unmarshal" ∧
      (AccountSlots (extensionWith emptyStore scenarioABI nodeGarbled) addrA).1 = 16 ∧
      (AccountSlots (extensionWith emptyStore scenarioABI nodeGarbled)
        addrA).2.accLevels.lookup addrA = some IdentityLevel_UNKNOWN) :=
  ⟨⟨by decide, by decide,
      (AccountSlots_lookup_failure (extensionWith emptyStore brokenPackABI nodeProfessional)
        addrA (by decide) (by decide)).1,
      (AccountSlots_lookup_failure (extensionWith emptyStore brokenPackABI nodeProfessional)
        addrA (by decide) (by decide)).2.2⟩,
    ⟨by decide, by decide,
      (AccountSlots_lookup_failure freshProfessional addrB (by decide) (by decide)).1,
      (AccountSlots_lookup_failure freshProfessional addrB (by decide) (by decide)).2.2⟩,
    ⟨by decide, by decide,
      (AccountSlots_lookup_failure (extensionWith emptyStore scenarioABI nodeGarbled)
        addrA (by decide) (by decide)).1,
      (AccountSlots_lookup_failure (extensionWith emptyStore scenarioABI nodeGarbled)
        addrA (by decide) (by decide)).2.2⟩⟩

/-- C3: when `addr` is cached at `level`, `AccountSlots` returns the tier-table
quota of `level` and leaves the whole extension as it was: the store is
unchanged and no round trip to the registry is counted. Hence after any number
`n` of such calls the next one still returns that quota with the extension
unchanged, and the quota is the same under any other ABI, registry address and
node. -/
theorem AccountSlots_cached_stable (m : sonmExtension) (addr : Address)
    (level : IdentityLevel) (n : Nat) (abi : ABI) (registry : Address) (client : Client)
    (hcached : m.accLevels.lookup addr = some level) :
    (AccountSlots m addr).1 = resolveSlots level ∧
      (AccountSlots m addr).1 = quotaReference level ∧
      (AccountSlots m addr).2 = m ∧
      (AccountSlots m addr).2.accLevels = m.accLevels ∧
      (AccountSlots m addr).2.client.sent = m.client.sent ∧
      AccountSlots ((fun s => (AccountSlots s addr).2)^[n] m) addr = (resolveSlots level, m) ∧
      (AccountSlots
        { accLevels := m.accLevels, abi := abi, profileRegistry := registry,
          client := client } addr).1 = resolveSlots level := by
  have hhit := AccountSlots_hit m addr level hcached
  have hiter : (fun s => (AccountSlots s addr).2)^[n] m = m := by
    induction n with
    | zero => rfl
    | succ k ih =>
      rw [Function.iterate_succ_apply', ih, hhit]
  refine ⟨?_, ?_, ?_, ?_, ?_, ?_, ?_⟩
  · rw [hhit]
  · rw [hhit, resolveSlots_eq_quotaReference]
  · rw [hhit]
  · rw [hhit]
  · rw [hhit]
  · rw [hiter, hhit]
  · exact congrArg Prod.fst
      (AccountSlots_hit
        { accLevels := m.accLevels, abi := abi, profileRegistry := registry,
          client := client } addr level hcached)

/-- C3 at work: A cached at `PROFESSIONAL` keeps the quota 256 over repeated
calls although the node would by now answer `ANONYMOUS`. -/
theorem AccountSlots_cached_stable_scenario :
    cachedThenAnonymous.accLevels.lookup addrA = some IdentityLevel_PROFESSIONAL ∧
      (getAccountProfile cachedThenAnonymous addrA).1 = IdentityLevel_ANONYMOUS ∧
      (AccountSlots cachedThenAnonymous addrA).1 = 256 ∧
      AccountSlots ((fun s => (AccountSlots s addrA).2)^[3] cachedThenAnonymous) addrA =
        (256, cachedThenAnonymous) :=
  ⟨by decide, by decide,
    (AccountSlots_cached_stable cachedThenAnonymous addrA IdentityLevel_PROFESSIONAL 3
      scenarioABI 0 nodeRegistered (by decide)).1,
    (AccountSlots_cached_stable cachedThenAnonymous addrA IdentityLevel_PROFESSIONAL 3
      scenarioABI 0 nodeRegistered (by decide)).2.2.2.2.2.1⟩

/-- C6: when `addr` is not cached, the store after `AccountSlots m addr` is the
old store with one entry added for `addr`, holding the level the lookup returned
when it succeeded and `UNKNOWN` when it failed; every other address keeps its
presence and its level. -/
theorem AccountSlots_miss_extends_store (m : sonmExtension) (addr : Address)
    (hmiss : m.accLevels.lookup addr = none) :
    (AccountSlots m addr).2.accLevels =
        m.accLevels.set addr
          (if (getAccountProfile m addr).2.1.isSome then IdentityLevel_UNKNOWN
            else (getAccountProfile m addr).1) ∧
      (∀ a : Address, (AccountSlots m addr).2.accLevels.lookup a =
        if a = addr then
          some (if (getAccountProfile m addr).2.1.isSome then IdentityLevel_UNKNOWN
            else (getAccountProfile m addr).1)
        else m.accLevels.lookup a) ∧
      (∀ a : Address, a ∈ (AccountSlots m addr).2.accLevels ↔ a = addr ∨ a ∈ m.accLevels) ∧
      addr ∉ m.accLevels ∧
      (AccountSlots m addr).2.accLevels.keys = insert addr m.accLevels.keys ∧
      (AccountSlots m addr).2.accLevels.keys.card = m.accLevels.keys.card + 1 := by
  have hnot : addr ∉ m.accLevels := Finmap.lookup_eq_none.mp hmiss
  have hnotk : addr ∉ m.accLevels.keys := fun hk => hnot (Finmap.mem_keys.mp hk)
  have hacc := AccountSlots_miss_accLevels m addr hmiss
  refine ⟨hacc, ?_, AccountSlots_mem m addr, hnot, ?_, ?_⟩
  · intro a
    rw [hacc]
    exact Store.lookup_set _ _ _ _
  · rw [hacc]
    exact Store.keys_set _ _ _
  · rw [hacc, Store.keys_set, Finset.card_insert_of_not_mem hnotk]

/-- C6 at work: with nothing cached and the node answering `PROFESSIONAL` for A
and timing out for B, the call for A stores `PROFESSIONAL`, and the following
call for B stores `UNKNOWN` and leaves the entry of A alone. -/
theorem AccountSlots_miss_extends_store_scenario :
    freshProfessional.accLevels.lookup addrA = none ∧
      (AccountSlots freshProfessional addrA).2.accLevels =
        emptyStore.set addrA IdentityLevel_PROFESSIONAL ∧
      (AccountSlots (AccountSlots freshProfessional addrA).2 addrB).2.accLevels =
        (emptyStore.set addrA IdentityLevel_PROFESSIONAL).set addrB IdentityLevel_UNKNOWN :=
  ⟨by decide,
    (AccountSlots_miss_extends_store freshProfessional addrA (by decide)).1,
    (AccountSlots_miss_extends_store (AccountSlots freshProfessional addrA).2 addrB
      (by decide)).1⟩

/-- C4: in a refresh sweep, if the lookup made for a cached address `addr` (at
the moment the loop reaches it, after the addresses `pre` visited before)
succeeds with a level `L`, then after the sweep the store maps `addr` to `L` and
the next `AccountSlots` call for it returns the quota of `L`. This holds for
every `L`, so in particular for one different from the cached level, and
nothing is assumed of the lookups for the other addresses. -/
theorem updateLevelInfo_applies_new_level (m : sonmExtension) (order pre post : List Address)
    (addr : Address) (cached L : IdentityLevel)
    (horder : RangeOrder m.accLevels order)
    (hcached : m.accLevels.lookup addr = some cached)
    (hsplit : order = pre ++ addr :: post)
    (hlevel : (getAccountProfile (updateLevelInfo pre m) addr).1 = L)
    (hok : (getAccountProfile (updateLevelInfo pre m) addr).2.1 = none) :
    (updateLevelInfo order m).accLevels.lookup addr = some L ∧
      (AccountSlots (updateLevelInfo order m) addr).1 = resolveSlots L ∧
      (AccountSlots (updateLevelInfo order m) addr).1 = quotaReference L := by
  have hnodup : (pre ++ addr :: post).Nodup := hsplit ▸ horder.1
  have hlook : (updateLevelInfo order m).accLevels.lookup addr = some L := by
    rw [hsplit, updateLevelInfo_lookup_of_success m pre post addr cached hnodup hcached hok,
      hlevel]
  have hslots := AccountSlots_hit (updateLevelInfo order m) addr L hlook
  refine ⟨hlook, ?_, ?_⟩
  · rw [hslots]
  · rw [hslots, resolveSlots_eq_quotaReference]

/-- C4 at work: A is cached at `PROFESSIONAL` and the registry by now answers
`ANONYMOUS` for A, while the lookup for B, visited first, times out; after the
sweep A is at `ANONYMOUS` and `AccountSlots` returns 32 for it. -/
theorem updateLevelInfo_applies_new_level_scenario :
    RangeOrder cachedThenAnonymous.accLevels [addrB, addrA] ∧
      cachedThenAnonymous.accLevels.lookup addrA = some IdentityLevel_PROFESSIONAL ∧
      (getAccountProfile cachedThenAnonymous addrB).2.1 = some "context deadline exceeded" ∧
      (updateLevelInfo [addrB, addrA] cachedThenAnonymous).accLevels.lookup addrA =
        some IdentityLevel_ANONYMOUS ∧
      (AccountSlots (updateLevelInfo [addrB, addrA] cachedThenAnonymous) addrA).1 = 32 :=
  ⟨(rangeOrder_pair _ addrA addrB (by decide) (mem_pair_store _ _ _ _)).2,
    by decide, by decide,
    (updateLevelInfo_applies_new_level cachedThenAnonymous [addrB, addrA] [addrB] [] addrA
      IdentityLevel_PROFESSIONAL IdentityLevel_ANONYMOUS
      (rangeOrder_pair _ addrA addrB (by decide) (mem_pair_store _ _ _ _)).2
      (by decide) rfl (by decide) (by decide)).1,
    (updateLevelInfo_applies_new_level cachedThenAnonymous [addrB, addrA] [addrB] [] addrA
      IdentityLevel_PROFESSIONAL IdentityLevel_ANONYMOUS
      (rangeOrder_pair _ addrA addrB (by decide) (mem_pair_store _ _ _ _)).2
      (by decide) rfl (by decide) (by decide)).2.1⟩

/-- C5: in a refresh sweep, if the lookup made for `addr` (at the moment the
loop reaches it, after the addresses `pre` visited before) fails, then the store
after the sweep holds for `addr` exactly what it held before: the entry is not
reset to `UNKNOWN`, and `AccountSlots` answers for it as before. -/
theorem updateLevelInfo_failure_keeps_level (m : sonmExtension)
    (order pre post : List Address) (addr : Address)
    (horder : RangeOrder m.accLevels order)
    (hsplit : order = pre ++ addr :: post)
    (hfail : (getAccountProfile (updateLevelInfo pre m) addr).2.1.isSome = true) :
    (updateLevelInfo order m).accLevels.lookup addr = m.accLevels.lookup addr ∧
      (AccountSlots (updateLevelInfo order m) addr).1 = (AccountSlots m addr).1 := by
  have hnodup : (pre ++ addr :: post).Nodup := hsplit ▸ horder.1
  obtain ⟨hsweep, hpre⟩ := updateLevelInfo_lookup_split pre post addr m hnodup
  have hlook : (updateLevelInfo order m).accLevels.lookup addr = m.accLevels.lookup addr := by
    rw [hsplit, hsweep, updateLevelStep_lookup_of_failure _ addr hfail, hpre]
  refine ⟨hlook, ?_⟩
  show resolveSlots (((updateLevelInfo order m).accLevels.lookup addr).getD 0) =
    resolveSlots ((m.accLevels.lookup addr).getD 0)
  rw [hlook]

/-- C5 at work: B is cached at `REGISTERED` and its lookup times out during the
sweep, in which A moves from `ANONYMOUS` to `PROFESSIONAL`; B stays at
`REGISTERED`. -/
theorem updateLevelInfo_failure_keeps_level_scenario :
    RangeOrder cachedWithOutage.accLevels [addrA, addrB] ∧
      (getAccountProfile (updateLevelInfo [addrA] cachedWithOutage) addrB).2.1 =
        some "context deadline exceeded" ∧
      cachedWithOutage.accLevels.lookup addrB = some IdentityLevel_REGISTERED ∧
      (updateLevelInfo [addrA, addrB] cachedWithOutage).accLevels.lookup addrB =
        cachedWithOutage.accLevels.lookup addrB ∧
      (updateLevelInfo [addrA, addrB] cachedWithOutage).accLevels.lookup addrA =
        some IdentityLevel_PROFESSIONAL :=
  ⟨(rangeOrder_pair _ addrB addrA (by decide) (mem_pair_store _ _ _ _)).2,
    by decide, by decide,
    (updateLevelInfo_failure_keeps_level cachedWithOutage [addrA, addrB] [addrA] [] addrB
      (rangeOrder_pair _ addrB addrA (by decide) (mem_pair_store _ _ _ _)).2
      rfl (by decide)).1,
    by decide⟩

/-- C8: in every state reached from the store built by `NewSonmExtension` through
`AccountSlots` calls and refresh sweeps, no operation removes an entry:
`AccountSlots m addr` keeps every cached address and adds at most `addr`, a
refresh sweep (in whatever order it visits the keys) leaves the set of cached
addresses exactly as it is, and so every address of the initial store, both
seeded ones included, is still cached. -/
theorem entries_never_removed (JSON : String → Except Error ABI) (cfg : SonmConfig)
    (client : Client) (m0 m : sonmExtension) (addr : Address) (order : List Address)
    (hnew : NewSonmExtension JSON cfg client = .ok m0)
    (hreach : Reachable m0 m) :
    m.accLevels.keys ⊆ (AccountSlots m addr).2.accLevels.keys ∧
      (AccountSlots m addr).2.accLevels.keys ⊆ insert addr m.accLevels.keys ∧
      (updateLevelInfo order m).accLevels.keys = m.accLevels.keys ∧
      m0.accLevels.keys ⊆ m.accLevels.keys ∧
      seedOne ∈ m.accLevels ∧ seedTwo ∈ m.accLevels := by
  have hsub := hreach.keys_subset
  have hacc := NewSonmExtension_accLevels JSON cfg client m0 hnew
  have hone : seedOne ∈ m0.accLevels.keys := by
    rw [Finmap.mem_keys, hacc]
    exact (mem_pair_store _ _ _ _ _).mpr (Or.inl rfl)
  have htwo : seedTwo ∈ m0.accLevels.keys := by
    rw [Finmap.mem_keys, hacc]
    exact (mem_pair_store _ _ _ _ _).mpr (Or.inr rfl)
  refine ⟨AccountSlots_keys_subset m addr, ?_, updateLevelInfo_keys order m, hsub,
    Finmap.mem_keys.mp (hsub hone), Finmap.mem_keys.mp (hsub htwo)⟩
  intro a ha
  rw [Finmap.mem_keys] at ha
  rw [Finset.mem_insert, Finmap.mem_keys]
  exact (AccountSlots_mem m addr a).mp ha

/-- C8 at work: from the constructed store, a sweep and then `AccountSlots` for
the new address A; both seeded addresses are still cached and A is the only
address added. -/
theorem entries_never_removed_scenario :
    NewSonmExtension (fun _ => .ok scenarioABI) DefaultSonmConfig nodeRegistered =
        .ok seededRegistered ∧
      Reachable seededRegistered (updateLevelInfo [seedOne, seedTwo] seededRegistered) ∧
      (updateLevelInfo [seedTwo, seedOne]
          (updateLevelInfo [seedOne, seedTwo] seededRegistered)).accLevels.keys =
        (updateLevelInfo [seedOne, seedTwo] seededRegistered).accLevels.keys ∧
      (AccountSlots (updateLevelInfo [seedOne, seedTwo] seededRegistered)
          addrA).2.accLevels.keys ⊆
        insert addrA (updateLevelInfo [seedOne, seedTwo] seededRegistered).accLevels.keys ∧
      seedOne ∈ (updateLevelInfo [seedOne, seedTwo] seededRegistered).accLevels ∧
      seedTwo ∈ (updateLevelInfo [seedOne, seedTwo] seededRegistered).accLevels :=
  ⟨rfl,
    Reachable.sweep [seedOne, seedTwo] Reachable.start
      (rangeOrder_pair _ seedOne seedTwo (by decide) (mem_pair_store _ _ _ _)).1,
    (entries_never_removed (fun _ => .ok scenarioABI) DefaultSonmConfig nodeRegistered
      seededRegistered (updateLevelInfo [seedOne, seedTwo] seededRegistered) addrA
      [seedTwo, seedOne] rfl
      (Reachable.sweep [seedOne, seedTwo] Reachable.start
        (rangeOrder_pair _ seedOne seedTwo (by decide) (mem_pair_store _ _ _ _)).1)).2.2.1,
    (entries_never_removed (fun _ => .ok scenarioABI) DefaultSonmConfig nodeRegistered
      seededRegistered (updateLevelInfo [seedOne, seedTwo] seededRegistered) addrA
      [seedTwo, seedOne] rfl
      (Reachable.sweep [seedOne, seedTwo] Reachable.start
        (rangeOrder_pair _ seedOne seedTwo (by decide) (mem_pair_store _ _ _ _)).1)).2.1,
    (entries_never_removed (fun _ => .ok scenarioABI) DefaultSonmConfig nodeRegistered
      seededRegistered (updateLevelInfo [seedOne, seedTwo] seededRegistered) addrA
      [seedTwo, seedOne] rfl
      (Reachable.sweep [seedOne, seedTwo] Reachable.start
        (rangeOrder_pair _ seedOne seedTwo (by decide) (mem_pair_store _ _ _ _)).1)).2.2.2.2.1,
    (entries_never_removed (fun _ => .ok scenarioABI) DefaultSonmConfig nodeRegistered
      seededRegistered (updateLevelInfo [seedOne, seedTwo] seededRegistered) addrA
      [seedTwo, seedOne] rfl
      (Reachable.sweep [seedOne, seedTwo] Reachable.start
        (rangeOrder_pair _ seedOne seedTwo (by decide) (mem_pair_store _ _ _ _)).1)).2.2.2.2.2⟩

/-- C9: the store built by `NewSonmExtension` holds exactly the two seeded
addresses, `0xfe9e8709d3215310075d67e3ed32a380ccf451c8` and
`0xB6b5089844F439018635bab88B36cd4705f0d090`, both at `UNKNOWN`, and
`AccountSlots` returns 16 for each. After one refresh sweep in which every
lookup resolves to `REGISTERED`, both entries are `REGISTERED` and
`AccountSlots` returns 64 for each. -/
theorem NewSonmExtension_seeds (JSON : String → Except Error ABI) (cfg : SonmConfig)
    (client : Client) (m0 : sonmExtension) (order : List Address)
    (hnew : NewSonmExtension JSON cfg client = .ok m0)
    (horder : RangeOrder m0.accLevels order)
    (hreg : ∀ (pre : List Address) (a : Address) (post : List Address),
      order = pre ++ a :: post →
        (getAccountProfile (updateLevelInfo pre m0) a).1 = IdentityLevel_REGISTERED ∧
          (getAccountProfile (updateLevelInfo pre m0) a).2.1 = none) :
    (seedOne = 0xfe9e8709d3215310075d67e3ed32a380ccf451c8 ∧
        seedTwo = 0xB6b5089844F439018635bab88B36cd4705f0d090) ∧
      (m0.accLevels.keys = {seedOne, seedTwo} ∧ m0.accLevels.keys.card = 2) ∧
      (m0.accLevels.lookup seedOne = some IdentityLevel_UNKNOWN ∧
        m0.accLevels.lookup seedTwo = some IdentityLevel_UNKNOWN) ∧
      ((AccountSlots m0 seedOne).1 = 16 ∧ (AccountSlots m0 seedTwo).1 = 16) ∧
      ((updateLevelInfo order m0).accLevels.lookup seedOne = some IdentityLevel_REGISTERED ∧
        (updateLevelInfo order m0).accLevels.lookup seedTwo =
          some IdentityLevel_REGISTERED) ∧
      ((AccountSlots (updateLevelInfo order m0) seedOne).1 = 64 ∧
        (AccountSlots (updateLevelInfo order m0) seedTwo).1 = 64) := by
  have hacc := NewSonmExtension_accLevels JSON cfg client m0 hnew
  have hkeys : m0.accLevels.keys = {seedOne, seedTwo} := by
    ext a
    rw [Finmap.mem_keys, hacc, mem_pair_store, Finset.mem_insert, Finset.mem_singleton]
  have hl1 : m0.accLevels.lookup seedOne = some IdentityLevel_UNKNOWN := by
    rw [hacc]
    decide
  have hl2 : m0.accLevels.lookup seedTwo = some IdentityLevel_UNKNOWN := by
    rw [hacc]
    decide
  have hafter : ∀ a : Address, m0.accLevels.lookup a = some IdentityLevel_UNKNOWN →
      (updateLevelInfo order m0).accLevels.lookup a = some IdentityLevel_REGISTERED := by
    intro a ha
    have hmem : a ∈ order := (horder.2 a).mpr (Finmap.mem_of_lookup_eq_some ha)
    obtain ⟨pre, post, hsplit⟩ := List.append_of_mem hmem
    obtain ⟨hlevel, hok⟩ := hreg pre a post hsplit
    have hnodup : (pre ++ a :: post).Nodup := hsplit ▸ horder.1
    rw [hsplit, updateLevelInfo_lookup_of_success m0 pre post a _ hnodup ha hok, hlevel]
  refine ⟨⟨by decide, by decide⟩, ⟨hkeys, ?_⟩, ⟨hl1, hl2⟩, ⟨?_, ?_⟩,
    ⟨hafter _ hl1, hafter _ hl2⟩, ⟨?_, ?_⟩⟩
  · rw [hkeys]
    decide
  · rw [AccountSlots_hit m0 seedOne _ hl1]
    rfl
  · rw [AccountSlots_hit m0 seedTwo _ hl2]
    rfl
  · rw [AccountSlots_hit _ seedOne _ (hafter _ hl1)]
    rfl
  · rw [AccountSlots_hit _ seedTwo _ (hafter _ hl2)]
    rfl

/-- C9 at work: the constructor run on an ABI that parses and a node answering
`REGISTERED`; quotas are 16 before and 64 after the sweep. -/
theorem NewSonmExtension_seeds_scenario :
    NewSonmExtension (fun _ => .ok scenarioABI) DefaultSonmConfig nodeRegistered =
        .ok seededRegistered ∧
      RangeOrder seededRegistered.accLevels [seedTwo, seedOne] ∧
      ((AccountSlots seededRegistered seedOne).1 = 16 ∧
        (AccountSlots seededRegistered seedTwo).1 = 16) ∧
      ((AccountSlots (updateLevelInfo [seedTwo, seedOne] seededRegistered) seedOne).1 = 64 ∧
        (AccountSlots (updateLevelInfo [seedTwo, seedOne] seededRegistered) seedTwo).1 = 64) :=
  ⟨rfl,
    (rangeOrder_pair _ seedOne seedTwo (by decide) (mem_pair_store _ _ _ _)).2,
    (NewSonmExtension_seeds (fun _ => .ok scenarioABI) DefaultSonmConfig nodeRegistered
      seededRegistered [seedTwo, seedOne] rfl
      (rangeOrder_pair _ seedOne seedTwo (by decide) (mem_pair_store _ _ _ _)).2
      (fun pre a _ _ =>
        nodeRegistered_lookup _ a (updateLevelInfo_sameRegistry pre seededRegistered))).2.2.2.1,
    (NewSonmExtension_seeds (fun _ => .ok scenarioABI) DefaultSonmConfig nodeRegistered
      seededRegistered [seedTwo, seedOne] rfl
      (rangeOrder_pair _ seedOne seedTwo (by decide) (mem_pair_store _ _ _ _)).2
      (fun pre a _ _ =>
        nodeRegistered_lookup _ a
          (updateLevelInfo_sameRegistry pre seededRegistered))).2.2.2.2.2⟩

/-- C10: against a registry that answers as a function of the request alone, the
store a refresh sweep leaves does not depend on the order in which the keys are
visited: for any two orders the stores are equal, each cached address holding
the registry's level when its lookup succeeds and its previous level when it
fails (`refreshed`); and a second sweep, in any order, changes nothing. -/
theorem updateLevelInfo_order_independent (m : sonmExtension)
    (order1 order2 order3 : List Address)
    (hst : Stationary m)
    (h1 : RangeOrder m.accLevels order1)
    (h2 : RangeOrder m.accLevels order2)
    (h3 : RangeOrder (updateLevelInfo order1 m).accLevels order3) :
    (updateLevelInfo order1 m).accLevels = (updateLevelInfo order2 m).accLevels ∧
      (∀ a : Address, (updateLevelInfo order1 m).accLevels.lookup a = refreshed m a) ∧
      (updateLevelInfo order3 (updateLevelInfo order1 m)).accLevels =
        (updateLevelInfo order1 m).accLevels := by
  have hfirst := updateLevelInfo_lookup_refreshed m hst order1 h1
  have hsame := updateLevelInfo_sameRegistry order1 m
  have hst1 : Stationary (updateLevelInfo order1 m) := hst.of_sameRegistry hsame
  refine ⟨?_, hfirst, ?_⟩
  · apply Finmap.ext_lookup
    intro a
    rw [hfirst a, updateLevelInfo_lookup_refreshed m hst order2 h2 a]
  · apply Finmap.ext_lookup
    intro a
    rw [updateLevelInfo_lookup_refreshed _ hst1 order3 h3 a]
    obtain ⟨hlev, herr⟩ := getAccountProfile_of_sameRegistry m _ a hst hsame
    rw [refreshed_eq_map, hlev, herr, hfirst a, refreshed_eq_map]
    cases m.accLevels.lookup a with
    | none => rfl
    | some old =>
      by_cases hfail : (getAccountProfile m a).2.1.isSome = true
      · simp [hfail]
      · simp [hfail]

/-- C10 at work: A cached at `PROFESSIONAL` and B at `UNKNOWN`, the node
answering `ANONYMOUS` for A and timing out for B; both orders leave A at
`ANONYMOUS` and B at `UNKNOWN`, and sweeping again changes nothing. -/
theorem updateLevelInfo_order_independent_scenario :
    Stationary cachedThenAnonymous ∧
      RangeOrder cachedThenAnonymous.accLevels [addrA, addrB] ∧
      RangeOrder cachedThenAnonymous.accLevels [addrB, addrA] ∧
      (updateLevelInfo [addrA, addrB] cachedThenAnonymous).accLevels =
        (updateLevelInfo [addrB, addrA] cachedThenAnonymous).accLevels ∧
      (updateLevelInfo [addrA, addrB] cachedThenAnonymous).accLevels.lookup addrA =
        some IdentityLevel_ANONYMOUS ∧
      (updateLevelInfo [addrA, addrB] cachedThenAnonymous).accLevels.lookup addrB =
        some IdentityLevel_UNKNOWN ∧
      (updateLevelInfo [addrB, addrA]
          (updateLevelInfo [addrA, addrB] cachedThenAnonymous)).accLevels =
        (updateLevelInfo [addrA, addrB] cachedThenAnonymous).accLevels :=
  ⟨fun _ _ _ => rfl,
    (rangeOrder_pair _ addrA addrB (by decide) (mem_pair_store _ _ _ _)).1,
    (rangeOrder_pair _ addrA addrB (by decide) (mem_pair_store _ _ _ _)).2,
    (updateLevelInfo_order_independent cachedThenAnonymous [addrA, addrB] [addrB, addrA]
      [addrB, addrA] (fun _ _ _ => rfl)
      (rangeOrder_pair _ addrA addrB (by decide) (mem_pair_store _ _ _ _)).1
      (rangeOrder_pair _ addrA addrB (by decide) (mem_pair_store _ _ _ _)).2
      ((rangeOrder_pair _ addrA addrB (by decide)
        (mem_pair_store _ _ _ _)).2.after_sweep _)).1,
    by decide, by decide,
    (updateLevelInfo_order_independent cachedThenAnonymous [addrA, addrB] [addrB, addrA]
      [addrB, addrA] (fun _ _ _ => rfl)
      (rangeOrder_pair _ addrA addrB (by decide) (mem_pair_store _ _ _ _)).1
      (rangeOrder_pair _ addrA addrB (by decide) (mem_pair_store _ _ _ _)).2
      ((rangeOrder_pair _ addrA addrB (by decide)
        (mem_pair_store _ _ _ _)).2.after_sweep _)).2.2⟩

end Sonm
